import Mathlib

/-!
Shallow embedding of the trpc-cache repository core:
`src/cache-middleware.ts` (createCacheKey, createCacheMiddleware, invalidateCache)
and the serialization utilities (`isSerializable`, `safeStringify`,
`sanitizeForCache`).

JavaScript values are modelled by the inductive tree `JsValue`; machine
floats are modelled by `Int` (no claim depends on float behaviour), a
`Date` instance carries its ISO string, and an object with a prototype
other than `Object.prototype` (a class instance) is the constructor
`inst`.  Circular object graphs, needed for `safeStringify`, are modelled
separately by an explicit node store (`Store`) at the end of the
definition section.
-/

namespace TrpcCache

/-- Model of a JavaScript runtime value (acyclic). `undef` is `undefined`,
`date` is a `Date` instance carrying its ISO representation, `obj` is a
plain object (prototype `Object.prototype`) with its own enumerable fields
in order, `inst` is an object whose prototype is neither `null` nor
`Object.prototype` (e.g. a class instance, a `TRPCError`), `fn` is a
function value. -/
inductive JsValue where
  | null : JsValue
  | undef : JsValue
  | bool (b : Bool) : JsValue
  | num (n : Int) : JsValue
  | str (s : String) : JsValue
  | date (iso : String) : JsValue
  | arr (elems : List JsValue) : JsValue
  | obj (fields : List (String × JsValue)) : JsValue
  | inst (fields : List (String × JsValue)) : JsValue
  | fn : JsValue

/-- JavaScript truthiness of a value (`if (v)`): `undefined`, `null`,
`false`, `0`, and the empty string are falsy; every other modelled value
(objects, arrays, dates, functions, non-zero numbers, non-empty strings)
is truthy. -/
def truthy : JsValue → Bool
  | .null => false
  | .undef => false
  | .bool b => b
  | .num n => n != 0
  | .str s => s != ""
  | _ => true

mutual

/-- Function `isSerializable` from `src/utils/serialization.ts` (unnamed part_006,
lines 16-32): true for `null`/`undefined`, numbers, strings, booleans,
`Date` instances, arrays of serializable elements, and plain objects
(prototype exactly `Object.prototype`) whose values are all serializable;
false for anything else (functions, class instances). -/
def isSerializable : JsValue → Bool
  | .null => true
  | .undef => true
  | .num _ => true
  | .str _ => true
  | .bool _ => true
  | .date _ => true
  | .arr l => serAll l
  | .obj l => serAllFields l
  | .inst _ => false
  | .fn => false

/-- The check `obj.every(isSerializable)` over an array's elements. -/
def serAll : List JsValue → Bool
  | [] => true
  | v :: vs => isSerializable v && serAll vs

/-- The check `Object.values(obj).every(isSerializable)` over an object's fields. -/
def serAllFields : List (String × JsValue) → Bool
  | [] => true
  | (_, v) :: vs => isSerializable v && serAllFields vs

end

mutual

/-- Function `sanitizeForCache` from `src/utils/serialization.ts` (unnamed
part_006, lines 61-80): a serializable value is returned unchanged;
otherwise an array is element-wise sanitized, an object (plain or class
instance: `obj && typeof obj === 'object'`) is rebuilt as a plain object
keeping serializable field values and recursively sanitizing the others,
and any other value (a function) becomes `null`. -/
def sanitizeForCache (v : JsValue) : JsValue :=
  if isSerializable v then v
  else
    match v with
    | .arr l => .arr (sanitizeList l)
    | .obj l => .obj (sanitizeFields l)
    | .inst l => .obj (sanitizeFields l)
    | _ => .null

/-- The map `obj.map((item) => sanitizeForCache(item))`. -/
def sanitizeList : List JsValue → List JsValue
  | [] => []
  | v :: vs => sanitizeForCache v :: sanitizeList vs

/-- The `for (const [key, value] of Object.entries(obj))` loop building
`clean`: a serializable field value is kept, any other is sanitized. -/
def sanitizeFields : List (String × JsValue) → List (String × JsValue)
  | [] => []
  | (k, v) :: vs =>
      (k, if isSerializable v then v else sanitizeForCache v) :: sanitizeFields vs

end

/-- JSON string escaping of a single character (quote and backslash; other
characters are passed through — no claim depends on control-character
escapes). -/
def escChar (c : Char) : String :=
  if c = '"' || c = '\\' then String.mk ['\\', c] else String.mk [c]

/-- A JSON string literal: `JSON.stringify` applied to a string. -/
def jsonQuote (s : String) : String :=
  "\"" ++ String.join (s.data.map escChar) ++ "\""

mutual

/-- Semantics of `JSON.stringify(v)` on an acyclic value: `none` models the JavaScript
result `undefined` (top-level `undefined` or function).  A `Date`
serializes via `toJSON` to its ISO string, an `undefined` or function
element of an array serializes as `null`, an `undefined`- or
function-valued object field is omitted, and a class instance serializes
its own enumerable fields like a plain object. -/
def jstr : JsValue → Option String
  | .null => some "null"
  | .undef => none
  | .fn => none
  | .bool b => some (cond b "true" "false")
  | .num n => some (toString n)
  | .str s => some (jsonQuote s)
  | .date iso => some (jsonQuote iso)
  | .arr l => some ("[" ++ String.intercalate "," (jstrList l) ++ "]")
  | .obj l => some ("\x7b" ++ String.intercalate "," (jstrFields l) ++ "\x7d")
  | .inst l => some ("\x7b" ++ String.intercalate "," (jstrFields l) ++ "\x7d")

/-- Array elements under `JSON.stringify`: an element whose serialization
is `undefined` becomes the element `null`. -/
def jstrList : List JsValue → List String
  | [] => []
  | v :: vs =>
      (match jstr v with
       | some s => s
       | none => "null") :: jstrList vs

/-- Object fields under `JSON.stringify`: a field whose value serializes
to `undefined` is omitted. -/
def jstrFields : List (String × JsValue) → List String
  | [] => []
  | (k, v) :: vs =>
      match jstr v with
      | some s => (jsonQuote k ++ ":" ++ s) :: jstrFields vs
      | none => jstrFields vs

end

mutual

/-- The value produced by `JSON.parse(JSON.stringify(v))`, the round trip
a value takes through the string-serialized (standard Redis) backend:
a `Date` comes back as its ISO string, array elements that serialized to
`undefined` come back as `null`, object fields that serialized to
`undefined` are dropped, and a class instance comes back as a plain
object.  (For a top-level `undefined`/function, where `JSON.stringify`
yields `undefined` and there is no string to parse, the function is
unused; it returns `null` there.) -/
def jsonRound : JsValue → JsValue
  | .null => .null
  | .undef => .null
  | .fn => .null
  | .bool b => .bool b
  | .num n => .num n
  | .str s => .str s
  | .date iso => .str iso
  | .arr l => .arr (jsonRoundList l)
  | .obj l => .obj (jsonRoundFields l)
  | .inst l => .obj (jsonRoundFields l)

/-- Round trip of array elements (`undefined`/function elements → `null`). -/
def jsonRoundList : List JsValue → List JsValue
  | [] => []
  | v :: vs =>
      (match jstr v with
       | some _ => jsonRound v
       | none => .null) :: jsonRoundList vs

/-- Round trip of object fields (fields serializing to `undefined` dropped). -/
def jsonRoundFields : List (String × JsValue) → List (String × JsValue)
  | [] => []
  | (k, v) :: vs =>
      match jstr v with
      | some _ => (k, jsonRound v) :: jsonRoundFields vs
      | none => jsonRoundFields vs

end

/-- The tRPC call context as far as the middleware reads it: the value of
`ctx.session?.user?.id` — `none` when the session, user, or id is absent
(or the session is `null`), `some s` when an id string `s` is present
(`s` may be the empty string). -/
structure Ctx where
  sessionUserId : Option String

/-- The validated cache configuration closed over by the middleware
(`validatedConfig` in `createCacheMiddleware`, after defaulting).  A
custom key function may throw, hence `Except Unit String`; `redisUrl`,
`upstashConfig`, and `debug` only affect connection targets and logging
and are not modelled. -/
structure CacheConfig where
  ttl : Option Nat
  useUpstash : Bool
  userSpecific : Bool
  globalCache : Bool
  getCacheKey : Option (String → JsValue → Except Unit String)

/-- The configuration object passed by the user to
`createCacheMiddleware`.  For `ttl`, `none` means the key is absent from
the object and `some t` means the key is present with value `t`
(`some none` = explicitly `undefined`): the object spread
`{...defaultCacheConfig, ...parsed}` distinguishes the two.  For the
boolean fields only presence/absence is modelled. -/
structure UserCacheConfig where
  ttl : Option (Option Nat) := none
  useUpstash : Option Bool := none
  userSpecific : Option Bool := none
  globalCache : Option Bool := none
  getCacheKey : Option (String → JsValue → Except Unit String) := none

/-- The merge `{ ...defaultCacheConfig, ...cacheConfigSchema.parse(config ?? {}) }`
(`cache-middleware.ts` lines 83-89 and 171-174): an absent `ttl` key
leaves the default `60` in place; a present `ttl` key (including one
explicitly set to `undefined`) overrides it.  `useUpstash` defaults to
`true`, `userSpecific` to `true`, `globalCache` to `false`. -/
def resolveConfig (u : UserCacheConfig) : CacheConfig :=
  { ttl :=
      match u.ttl with
      | none => some 60
      | some t => t
    useUpstash := u.useUpstash.getD true
    userSpecific := u.userSpecific.getD true
    globalCache := u.globalCache.getD false
    getCacheKey := u.getCacheKey }

/-- Validation `cacheConfigSchema.parse` followed by the merge: zod rejects a
non-positive `ttl` (`z.number().positive().optional()`); every other
modelled shape passes. -/
def parseCacheConfig (u : UserCacheConfig) : Except Unit CacheConfig :=
  match u.ttl with
  | some (some n) => if 0 < n then .ok (resolveConfig u) else .error ()
  | _ => .ok (resolveConfig u)

/-- Function `createCacheKey` (`cache-middleware.ts` lines 97-127).  A custom key
function is used verbatim (and may throw).  Otherwise
`inputString = input ? JSON.stringify(input) : ''` — JavaScript
truthiness, so any falsy input (absent/`undefined`, `null`, `0`, `false`,
`""`) yields the empty string; a truthy input whose `JSON.stringify` is
`undefined` (a function) interpolates as the text `"undefined"`.  The key
is `trpc:global:path:inputString` under `globalCache`, else
`trpc:user:path:userId:inputString` under `userSpecific` with
`userId = ctx.session?.user?.id ?? 'anonymous'`, else
`trpc:path:inputString`. -/
def createCacheKey (path : String) (input : JsValue) (ctx : Ctx)
    (config : CacheConfig) : Except Unit String :=
  match config.getCacheKey with
  | some f => f path input
  | none =>
    let inputString := if truthy input then (jstr input).getD "undefined" else ""
    if config.globalCache then
      .ok ("trpc:global:" ++ path ++ ":" ++ inputString)
    else
      let userId := ctx.sessionUserId.getD "anonymous"
      if config.userSpecific then
        .ok ("trpc:user:" ++ path ++ ":" ++ userId ++ ":" ++ inputString)
      else
        .ok ("trpc:" ++ path ++ ":" ++ inputString)

/-- One entry of the Upstash (native-value) backend: the stored value and
the `ex` expiry option the `set` carried (`none` = plain `set`, no
expiry). -/
structure UpstashEntry where
  value : JsValue
  expiry : Option Nat

/-- The Upstash backend state: an association list keyed by cache key. -/
abbrev UpstashStore := List (String × UpstashEntry)

/-- One entry of the standard Redis (string) backend: the stored string
`raw = JSON.stringify(sanitizedResult)`, the value `JSON.parse(raw)`
yields on read (the JSON round trip of what was written), and the expiry
(`setEx` ttl, or `none` for a plain `set`). -/
structure RedisEntry where
  raw : String
  parsed : JsValue
  expiry : Option Nat

/-- The standard Redis backend state. -/
abbrev RedisStore := List (String × RedisEntry)

/-- Operation `upstashRedis.get(key)`: the stored value, or `null` when the key is
absent. -/
def upstashGet (st : UpstashStore) (k : String) : JsValue :=
  match st.lookup k with
  | some e => e.value
  | none => .null

/-- Operation `upstashRedis.set(key, value)` / `set(key, value, { ex: ttl })`. -/
def upstashSet (st : UpstashStore) (k : String) (v : JsValue)
    (ex : Option Nat) : UpstashStore :=
  (k, ⟨v, ex⟩) :: st.filter (fun p => p.1 != k)

/-- Operation `upstashRedis.del(key)`. -/
def upstashDel (st : UpstashStore) (k : String) : UpstashStore :=
  st.filter (fun p => p.1 != k)

/-- Operation `redisClient.set(key, str)` / `setEx(key, ttl, str)`: stores the
serialized string; `parsed` records what `JSON.parse` returns for it. -/
def redisSet (st : RedisStore) (k : String) (raw : String)
    (parsed : JsValue) (ex : Option Nat) : RedisStore :=
  (k, ⟨raw, parsed, ex⟩) :: st.filter (fun p => p.1 != k)

/-- Operation `redisClient.del(key)`. -/
def redisDel (st : RedisStore) (k : String) : RedisStore :=
  st.filter (fun p => p.1 != k)

/-- Fault injection for the backend collaborators inside the `try` block:
`connectFail` models `getUpstashRedis`/`getStandardRedis` throwing,
`getFail` the backend `get` rejecting, `setFail` the backend
`set`/`setEx` rejecting. -/
structure BackendFault where
  connectFail : Bool := false
  getFail : Bool := false
  setFail : Bool := false

/-- Observable outcome of one middleware invocation: the settled result
(`.error` = the returned promise rejected), the two backend states after
the call, and how many times `next` (the wrapped operation) was invoked. -/
structure CallOut where
  res : Except Unit JsValue
  up : UpstashStore
  red : RedisStore
  calls : Nat

/-- One invocation of the middleware returned by `createCacheMiddleware`
(`cache-middleware.ts` lines 181-382), with a deterministic wrapped
operation `next`.

Faithful control flow: the cache key is derived at line 193, BEFORE the
`try` block, so a throwing custom key function propagates to the caller
with `next` never invoked.  Inside the `try`:

* Upstash branch — a thrown connect/get is caught and the `catch` block
  runs `return next()` (one invocation).  A truthy `get` result is a hit,
  returned as-is with `next` not invoked.  On a miss `next` runs; if it
  rejects, the `catch` block invokes `next` a second time and that
  outcome settles the call (nothing cached); if it resolves, the
  sanitized result is written (`ex: ttl` when a ttl is configured, plain
  `set` otherwise) and the original unsanitized result is returned.  A
  thrown `set` again reaches the `catch` fallback `return next()` (a
  second invocation).
* Standard Redis branch — the same, except the hit test is truthiness of
  the stored string and a hit returns `JSON.parse` of it, and the write
  stores `JSON.stringify(sanitizedResult)` (when that serialization is
  `undefined` — a non-string — the client rejects and the `catch`
  fallback runs). -/
def middlewareCall (config : CacheConfig) (ctx : Ctx) (path : String)
    (input : JsValue) (next : Except Unit JsValue) (fault : BackendFault)
    (up : UpstashStore) (red : RedisStore) : CallOut :=
  match createCacheKey path input ctx config with
  | .error e => ⟨.error e, up, red, 0⟩
  | .ok cacheKey =>
    if config.useUpstash then
      if fault.connectFail || fault.getFail then
        ⟨next, up, red, 1⟩
      else
        let cachedData := upstashGet up cacheKey
        if truthy cachedData then
          ⟨.ok cachedData, up, red, 0⟩
        else
          match next with
          | .error e => ⟨.error e, up, red, 2⟩
          | .ok result =>
            let sanitizedResult := sanitizeForCache result
            if fault.setFail then
              ⟨next, up, red, 2⟩
            else
              ⟨.ok result, upstashSet up cacheKey sanitizedResult config.ttl,
               red, 1⟩
    else
      if fault.connectFail || fault.getFail then
        ⟨next, up, red, 1⟩
      else
        let entry := red.lookup cacheKey
        let hit := match entry with
          | some e => e.raw != ""
          | none => false
        if hit then
          ⟨.ok (match entry with | some e => e.parsed | none => .null),
           up, red, 0⟩
        else
          match next with
          | .error e => ⟨.error e, up, red, 2⟩
          | .ok result =>
            let sanitizedResult := sanitizeForCache result
            match jstr sanitizedResult with
            | none => ⟨next, up, red, 2⟩
            | some raw =>
              if fault.setFail then
                ⟨next, up, red, 2⟩
              else
                ⟨.ok result, up,
                 redisSet red cacheKey raw (jsonRound sanitizedResult)
                   config.ttl, 1⟩

/-- The options object of `invalidateCache` (`cache-middleware.ts` lines
391-401): backend selector, scope flags, and an optional caller id, each
defaulted by `{ ...defaultOptions, ...options }`. -/
structure InvalidateOptions where
  useUpstash : Option Bool := none
  globalCache : Option Bool := none
  userSpecific : Option Bool := none
  userId : Option String := none

/-- The configuration shape `invalidateCache` hands to `createCacheKey`:
defaults `{ useUpstash: true, globalCache: false, userSpecific: true }`
merged with the options; it has no `getCacheKey` and no `ttl`. -/
def invalidateConfig (options : InvalidateOptions) : CacheConfig :=
  { ttl := none
    useUpstash := options.useUpstash.getD true
    userSpecific := options.userSpecific.getD true
    globalCache := options.globalCache.getD false
    getCacheKey := none }

/-- The mock context `invalidateCache` builds:
`config.userId ? { user: { id: config.userId } } : undefined` — string
truthiness, so an empty-string `userId` produces an `undefined` session
(and hence the `anonymous` caller id), unlike the middleware, where an
empty-string `ctx.session.user.id` survives `?? 'anonymous'`. -/
def invalidateMockCtx (options : InvalidateOptions) : Ctx :=
  ⟨match options.userId with
   | some s => if s != "" then some s else none
   | none => none⟩

/-- The cache key `invalidateCache` derives (its config has no custom key
function, so derivation cannot throw; the `.error` arm is unreachable). -/
def invalidateCacheKey (path : String) (input : JsValue)
    (options : InvalidateOptions) : String :=
  match createCacheKey path input (invalidateMockCtx options)
      (invalidateConfig options) with
  | .ok k => k
  | .error _ => ""

/-- Function `invalidateCache` (`cache-middleware.ts` lines 388-463): derive the
key from the reconstructed context and delete it from the selected
backend. -/
def invalidateCache (path : String) (input : JsValue)
    (options : InvalidateOptions) (up : UpstashStore) (red : RedisStore) :
    UpstashStore × RedisStore :=
  let cacheKey := invalidateCacheKey path input options
  if (invalidateConfig options).useUpstash then
    (upstashDel up cacheKey, red)
  else
    (up, redisDel red cacheKey)

/-- The hit test the middleware performs for a key against the current
backend state: truthiness of the Upstash value, non-emptiness of the
stored Redis string. -/
def cacheHit (config : CacheConfig) (up : UpstashStore) (red : RedisStore)
    (k : String) : Bool :=
  if config.useUpstash then
    truthy (upstashGet up k)
  else
    match red.lookup k with
    | some e => e.raw != ""
    | none => false

/-- The value a hit serves: the stored Upstash value, or `JSON.parse` of
the stored Redis string. -/
def servedValue (config : CacheConfig) (up : UpstashStore)
    (red : RedisStore) (k : String) : JsValue :=
  if config.useUpstash then
    upstashGet up k
  else
    match red.lookup k with
    | some e => e.parsed
    | none => .null

/-- Whether the entry just written for result `v` will test as a hit on
the next lookup: truthiness of the sanitized value (Upstash), or
non-emptiness of its JSON serialization (standard Redis). -/
def writtenHit (config : CacheConfig) (v : JsValue) : Bool :=
  if config.useUpstash then
    truthy (sanitizeForCache v)
  else
    match jstr (sanitizeForCache v) with
    | some raw => raw != ""
    | none => false

/-! ### Object graphs with sharing and cycles, for `safeStringify`

`safeStringify` (unnamed part_006, lines 39-54) must tolerate circular
object graphs, so here a value is a reference into an explicit node
store: `Ref.prim` is a primitive, `Ref.ptr i` points at node `i` of the
store, and a node is an array or an object whose children are again
references.  Cycles are stores whose nodes point back at earlier
nodes. -/

/-- A JavaScript primitive for the graph model.  `pbigint` is a `BigInt`,
the one primitive `JSON.stringify` throws on. -/
inductive Prim where
  | pnull : Prim
  | pundef : Prim
  | pbool (b : Bool) : Prim
  | pnum (n : Int) : Prim
  | pstr (s : String) : Prim
  | pbigint : Prim
deriving Repr, DecidableEq

/-- A reference: a primitive, or a pointer to a node of the store. -/
inductive Ref where
  | prim (p : Prim) : Ref
  | ptr (i : Nat) : Ref
deriving Repr, DecidableEq

/-- A heap node: an array of references or an object of named
references. -/
inductive NodeContent where
  | arrN (elems : List Ref) : NodeContent
  | objN (fields : List (String × Ref)) : NodeContent
deriving Repr, DecidableEq

/-- The node store: node `i` is `store.get? i`. -/
abbrev Store := List NodeContent

/-- Outcome of serializing one reference inside `JSON.stringify` with the
`safeStringify` replacer: a JSON fragment, the JavaScript `undefined`
(an `undefined` value, omitted in objects and `null` in arrays), a thrown
`TypeError` (`BigInt` serialization), or fuel exhaustion — an artifact of
the embedding, proved unreachable for well-formed stores. -/
inductive SR where
  | s (out : String) : SR
  | omitted : SR
  | thrown : SR
  | fuelOut : SR
deriving Repr, DecidableEq

/-- Serialization of a primitive: `undefined` is omitted, `BigInt`
throws. -/
def renderPrim : Prim → SR
  | .pnull => .s "null"
  | .pundef => .omitted
  | .pbool b => .s (cond b "true" "false")
  | .pnum n => .s (toString n)
  | .pstr s => .s (jsonQuote s)
  | .pbigint => .thrown

/-- Intermediate result of serializing a list of children: the fragments
produced so far, or a propagated `thrown`/`fuelOut`. -/
abbrev LR := (List String ⊕ SR) × List Nat

mutual

/-- Semantics of `JSON.stringify(value, replacer)` with the `safeStringify` replacer,
on one reference.  `seen` is the `WeakSet` of already-visited objects
(node indices), threaded left to right through the whole traversal of one
call exactly as the shared mutable `WeakSet` is: the replacer adds every
object on first visit and never removes it, so the SECOND visit to an
already-visited node — whether an ancestor (a true cycle) or a shared
sibling — is replaced by the sentinel string `[Circular Reference]`,
serialized as a JSON string.  `fuel` bounds pointer descents; each
descent pushes a fresh node index onto `seen`, so
`store.length + 1` fuel is always enough (proved below). -/
def strRef (store : Store) : Nat → List Nat → Ref → SR × List Nat
  | _, seen, .prim p => (renderPrim p, seen)
  | 0, seen, .ptr _ => (.fuelOut, seen)
  | fuel + 1, seen, .ptr i =>
    if i ∈ seen then
      (.s (jsonQuote "[Circular Reference]"), seen)
    else
      match store.get? i with
      | none => (.thrown, seen)
      | some (.arrN elems) =>
        match strList store fuel (i :: seen) elems with
        | (.inl parts, seen') =>
            (.s ("[" ++ String.intercalate "," parts ++ "]"), seen')
        | (.inr sr, seen') => (sr, seen')
      | some (.objN fields) =>
        match strFields store fuel (i :: seen) fields with
        | (.inl parts, seen') =>
            (.s ("\x7b" ++ String.intercalate "," parts ++ "\x7d"), seen')
        | (.inr sr, seen') => (sr, seen')

/-- Serialize the elements of an array node, threading `seen`; an element
serializing to `undefined` becomes `null`; `thrown`/`fuelOut`
propagate. -/
def strList (store : Store) : Nat → List Nat → List Ref → LR
  | _, seen, [] => (.inl [], seen)
  | fuel, seen, r :: rs =>
    match strRef store fuel seen r with
    | (.s out, seen') =>
      (match strList store fuel seen' rs with
       | (.inl parts, seen'') => (.inl (out :: parts), seen'')
       | (.inr sr, seen'') => (.inr sr, seen''))
    | (.omitted, seen') =>
      (match strList store fuel seen' rs with
       | (.inl parts, seen'') => (.inl ("null" :: parts), seen'')
       | (.inr sr, seen'') => (.inr sr, seen''))
    | (.thrown, seen') => (.inr .thrown, seen')
    | (.fuelOut, seen') => (.inr .fuelOut, seen')

/-- Serialize the fields of an object node, threading `seen`; a field
serializing to `undefined` is omitted; `thrown`/`fuelOut` propagate. -/
def strFields (store : Store) : Nat → List Nat → List (String × Ref) → LR
  | _, seen, [] => (.inl [], seen)
  | fuel, seen, (k, r) :: rs =>
    match strRef store fuel seen r with
    | (.s out, seen') =>
      (match strFields store fuel seen' rs with
       | (.inl parts, seen'') =>
           (.inl ((jsonQuote k ++ ":" ++ out) :: parts), seen'')
       | (.inr sr, seen'') => (.inr sr, seen''))
    | (.omitted, seen') =>
      (match strFields store fuel seen' rs with
       | (.inl parts, seen'') => (.inl parts, seen'')
       | (.inr sr, seen'') => (.inr sr, seen''))
    | (.thrown, seen') => (.inr .thrown, seen')
    | (.fuelOut, seen') => (.inr .fuelOut, seen')

end

/-- What `safeStringify` hands back to its caller: a string, `null` (the
`catch (err) { return null; }` arm), or `undefined` passed through (when
`JSON.stringify` itself returned `undefined` — a non-object,
non-serializable root). -/
inductive SSRes where
  | strRes (s : String) : SSRes
  | nullRes : SSRes
  | undefRes : SSRes
deriving Repr, DecidableEq

/-- Function `safeStringify(value)`: `JSON.stringify` with the seen-set replacer
starting from an empty seen set, `try`/`catch` mapping a throw to `null`.
Fuel `store.length + 1` is sufficient for every well-formed store (proved
below); the `fuelOut` arm is mapped to `nullRes` but never taken there. -/
def safeStringify (store : Store) (r : Ref) : SSRes :=
  match strRef store (store.length + 1) [] r with
  | (.s out, _) => .strRes out
  | (.omitted, _) => .undefRes
  | (.thrown, _) => .nullRes
  | (.fuelOut, _) => .nullRes

/-- A reference is well formed for a store of `n` nodes when any pointer
stays in range. -/
def wfRef (n : Nat) : Ref → Bool
  | .prim _ => true
  | .ptr i => i < n

/-- All children of a node are well formed. -/
def wfContent (n : Nat) : NodeContent → Bool
  | .arrN elems => elems.all (wfRef n)
  | .objN fields => fields.all (fun p => wfRef n p.2)

/-- Every node of the store has well-formed children. -/
def wfStore (store : Store) : Bool :=
  store.all (wfContent store.length)

/-- A reference is not a `BigInt` primitive. -/
def refNoBig : Ref → Bool
  | .prim .pbigint => false
  | _ => true

/-- No child of a node is a `BigInt`. -/
def contentNoBig : NodeContent → Bool
  | .arrN elems => elems.all refNoBig
  | .objN fields => fields.all (fun p => refNoBig p.2)

/-- No node of the store contains a `BigInt` child. -/
def storeNoBig (store : Store) : Bool :=
  store.all contentNoBig

/-- The default cache key as the amended claim C6 words it (stated
independently of `createCacheKey`, for the refinement comparison): prefix
`trpc:`, global scope drops the caller id, user scope inserts
`ctx.session?.user?.id ?? 'anonymous'`, and the input segment is empty
exactly when the input is falsy, otherwise its `JSON.stringify` (the text
`undefined` for a truthy input with no JSON serialization). -/
def defaultCacheKeySpec (path : String) (input : JsValue) (ctx : Ctx)
    (config : CacheConfig) : String :=
  let inputString := if truthy input then (jstr input).getD "undefined" else ""
  if config.globalCache then
    "trpc:global:" ++ path ++ ":" ++ inputString
  else if config.userSpecific then
    "trpc:user:" ++ path ++ ":" ++ ctx.sessionUserId.getD "anonymous" ++ ":" ++
      inputString
  else
    "trpc:" ++ path ++ ":" ++ inputString

/-- The failure-shaped middleware result the repository's own test
scaffolding produces (`createMockFailingNext`): the resolved object
`{ ok: false, marker: 'middlewareMarker', data: null, error: TRPCError }`
— the `error` field is a class instance. -/
def failureShapedResult : JsValue :=
  .obj [("ok", .bool false), ("marker", .str "middlewareMarker"),
        ("data", .null),
        ("error", .inst [("code", .str "INTERNAL_SERVER_ERROR"),
                         ("message", .str "Test error")])]

/-- A one-node cyclic store: node 0 is the object `a` with `a.self = a`. -/
def cycStore : Store := [.objN [("self", .ptr 0)]]

/-- Invariant on a seen set: no duplicates and every index in range. -/
def seenInv (len : Nat) (seen : List Nat) : Prop :=
  seen.Nodup ∧ ∀ j ∈ seen, j < len

/-- Precondition of the fuel-adequacy argument: the seen set satisfies
its invariant and the fuel plus the seen count exceeds the store size. -/
def seenPre (len : Nat) (fuel : Nat) (seen : List Nat) : Prop :=
  seenInv len seen ∧ len + 1 ≤ fuel + seen.length

/-- Relation between the seen set before and after serializing a
subtree: it only grew (by prepending), and the invariant is preserved. -/
def goodStep (len : Nat) (seen seen' : List Nat) : Prop :=
  (∃ ext, seen' = ext ++ seen) ∧ seenInv len seen'

/-- Soundness of one `strRef` step: it yields a result that is neither a
throw nor fuel exhaustion (and a proper JSON string when the reference is
a pointer), with the seen set evolving by `goodStep`. -/
def strRefOk (store : Store) (fuel : Nat) (seen : List Nat) (r : Ref) :
    Prop :=
  ∃ res seen', strRef store fuel seen r = (res, seen') ∧
    res ≠ SR.thrown ∧ res ≠ SR.fuelOut ∧
    (∀ i, r = .ptr i → ∃ out, res = SR.s out) ∧
    goodStep store.length seen seen'

/-! ## Theorems -/

/-- A serializable value is returned unchanged by `sanitizeForCache`. -/
theorem sanitizeForCache_of_serializable (v : JsValue)
    (h : isSerializable v = true) : sanitizeForCache v = v := by
  cases v <;> simp [sanitizeForCache, h]

mutual

/-- The output of `sanitizeForCache` is always serializable. -/
theorem serializable_sanitize (v : JsValue) :
    isSerializable (sanitizeForCache v) = true := by
  by_cases h : isSerializable v = true
  · rw [sanitizeForCache_of_serializable v h]; exact h
  · cases v with
    | arr l =>
        have hs : sanitizeForCache (JsValue.arr l) = .arr (sanitizeList l) := by
          simp [sanitizeForCache, h]
        rw [hs]
        simpa [isSerializable] using serializable_sanitizeList l
    | obj l =>
        have hs : sanitizeForCache (JsValue.obj l) = .obj (sanitizeFields l) := by
          simp [sanitizeForCache, h]
        rw [hs]
        simpa [isSerializable] using serializable_sanitizeFields l
    | inst l =>
        have hs : sanitizeForCache (JsValue.inst l) = .obj (sanitizeFields l) := by
          simp [sanitizeForCache, h]
        rw [hs]
        simpa [isSerializable] using serializable_sanitizeFields l
    | fn =>
        have hs : sanitizeForCache JsValue.fn = .null := by
          simp [sanitizeForCache, h]
        rw [hs]; rfl
    | null => simp [isSerializable] at h
    | undef => simp [isSerializable] at h
    | bool b => simp [isSerializable] at h
    | num n => simp [isSerializable] at h
    | str s => simp [isSerializable] at h
    | date iso => simp [isSerializable] at h

/-- Element-wise serializability of a sanitized array. -/
theorem serializable_sanitizeList (l : List JsValue) :
    serAll (sanitizeList l) = true := by
  cases l with
  | nil => rfl
  | cons v vs =>
      simp only [sanitizeList, serAll, Bool.and_eq_true]
      exact ⟨serializable_sanitize v, serializable_sanitizeList vs⟩

/-- Field-wise serializability of sanitized object fields. -/
theorem serializable_sanitizeFields (l : List (String × JsValue)) :
    serAllFields (sanitizeFields l) = true := by
  cases l with
  | nil => rfl
  | cons p vs =>
      obtain ⟨k, v⟩ := p
      by_cases h : isSerializable v = true
      · simp only [sanitizeFields, serAllFields, if_pos h, Bool.and_eq_true]
        exact ⟨h, serializable_sanitizeFields vs⟩
      · simp only [sanitizeFields, serAllFields, if_neg h, Bool.and_eq_true]
        exact ⟨serializable_sanitize v, serializable_sanitizeFields vs⟩

end

/-- C8: for every value `v`, if `isSerializable v` then `sanitizeForCache`
returns `v` unchanged, and for every value the output of
`sanitizeForCache` satisfies `isSerializable` (non-representable fields
of records/arrays are rebuilt recursively sanitized and an entirely
non-representable leaf becomes `null`). -/
theorem c8_sanitize_for_cache_spec :
    (∀ v : JsValue, isSerializable v = true → sanitizeForCache v = v) ∧
    (∀ v : JsValue, isSerializable (sanitizeForCache v) = true) :=
  ⟨sanitizeForCache_of_serializable, serializable_sanitize⟩

/-- Witness for C8 at a concrete serializable input. -/
theorem c8_sanitize_for_cache_spec_witness :
    isSerializable (.obj [("a", .num 1), ("b", .arr [.str "x"])]) = true ∧
    sanitizeForCache (.obj [("a", .num 1), ("b", .arr [.str "x"])]) =
      .obj [("a", .num 1), ("b", .arr [.str "x"])] :=
  ⟨rfl, c8_sanitize_for_cache_spec.1 _ rfl⟩

/-- C6 counterexample: the claim's key formula fails on the code at
concrete inputs.  With `globalCache` and no input the derived key is
`trpc:global:route:`, not `cache:global:route:` (the prefix is `trpc`,
not `cache`); and with the defined input `0` under neither scope flag the
derived key is `trpc:route:` — the input segment is empty because `0` is
falsy, not the serialization `"0"` the claim requires for any
present/defined input. -/
theorem c6_counterexample :
    createCacheKey "route" .undef ⟨none⟩ ⟨some 60, true, false, true, none⟩ =
      .ok "trpc:global:route:" ∧
    "trpc:global:route:" ≠ "cache:global:route:" ∧
    createCacheKey "route" (.num 0) ⟨none⟩ ⟨some 60, true, false, false, none⟩ =
      .ok "trpc:route:" ∧
    "trpc:route:" ≠ "cache:route:0" ∧
    "trpc:route:" ≠ "trpc:route:0" :=
  ⟨rfl, by decide, rfl, by decide, by decide⟩

/-- C6 amended: with no custom `getCacheKey`, the derived key is exactly
`"trpc:global:" ++ route ++ ":" ++ inputString` when `globalCache`,
`"trpc:user:" ++ route ++ ":" ++ callerId ++ ":" ++ inputString` when
`userSpecific` (with `callerId = "anonymous"` when no identity is
present), and `"trpc:" ++ route ++ ":" ++ inputString` otherwise, where
`inputString` is empty exactly when the input is falsy
(absent/`undefined`, `null`, `false`, `0`, or `""`) and otherwise the
deterministic structural serialization of the input
(`defaultCacheKeySpec` spells the formula out). -/
theorem c6_default_key_amended (path : String) (input : JsValue) (ctx : Ctx)
    (config : CacheConfig) (h : config.getCacheKey = none) :
    createCacheKey path input ctx config =
      .ok (defaultCacheKeySpec path input ctx config) := by
  cases hg : config.globalCache <;> cases hu : config.userSpecific <;>
    simp [createCacheKey, defaultCacheKeySpec, h, hg, hu]

/-- Witness for C6 at a concrete call. -/
theorem c6_default_key_amended_witness :
    (⟨some 60, true, true, false, none⟩ : CacheConfig).getCacheKey = none ∧
    createCacheKey "p" (.num 5) ⟨some "u"⟩ ⟨some 60, true, true, false, none⟩ =
      .ok (defaultCacheKeySpec "p" (.num 5) ⟨some "u"⟩
        ⟨some 60, true, true, false, none⟩) ∧
    defaultCacheKeySpec "p" (.num 5) ⟨some "u"⟩
        ⟨some 60, true, true, false, none⟩ = "trpc:user:p:u:5" :=
  ⟨rfl, c6_default_key_amended "p" (.num 5) ⟨some "u"⟩ _ rfl, rfl⟩

/-- Looking up a key right after an Upstash `set` of that key returns the
written entry. -/
theorem upstashSet_lookup_self (st : UpstashStore) (k : String)
    (v : JsValue) (e : Option Nat) :
    (upstashSet st k v e).lookup k = some ⟨v, e⟩ := by
  simp [upstashSet, List.lookup]

/-- Looking up a key right after a Redis `set`/`setEx` of that key
returns the written entry. -/
theorem redisSet_lookup_self (st : RedisStore) (k : String) (raw : String)
    (p : JsValue) (e : Option Nat) :
    (redisSet st k raw p e).lookup k = some ⟨raw, p, e⟩ := by
  simp [redisSet, List.lookup]

/-- After deleting key `k` from an association list, `k` no longer
resolves. -/
theorem lookup_filter_self {α : Type} (st : List (String × α)) (k : String) :
    (st.filter (fun p => p.1 != k)).lookup k = none := by
  induction st with
  | nil => rfl
  | cons p st ih =>
      obtain ⟨a, b⟩ := p
      by_cases h : a = k
      · simpa [List.filter, h] using ih
      · have hb : (a != k) = true := by simpa [bne_iff_ne] using h
        have hk : (k == a) = false := beq_false_of_ne (Ne.symm h)
        simp [List.filter, hb, List.lookup, hk, ih]

/-- C5 counterexample: a middleware built with an EMPTY configuration —
one that does not specify a `ttl` — resolves to `ttl = 60` (the
`defaultCacheConfig` default), and a successful result is written WITH a
60-second expiry, not as a permanent entry. -/
theorem c5_counterexample :
    (resolveConfig {}).ttl = some 60 ∧
    (middlewareCall (resolveConfig {}) ⟨none⟩ "p" .undef (.ok (.str "v"))
        {} [] []).up =
      [("trpc:user:p:anonymous:", ⟨.str "v", some 60⟩)] ∧
    (some 60 : Option Nat) ≠ none :=
  ⟨rfl, rfl, by decide⟩

/-- C5 amended: a configuration that OMITS `ttl` resolves to the default
of 60 seconds, so its entries expire; only a configuration that
explicitly sets `ttl` to `undefined` resolves to no TTL, and then a
successful result is written with no expiry on either backend — a
permanent entry (persisting until explicit invalidation or backend
eviction). -/
theorem c5_ttl_amended :
    (∀ u : UserCacheConfig, u.ttl = none → (resolveConfig u).ttl = some 60) ∧
    (∀ u : UserCacheConfig, u.ttl = some none → (resolveConfig u).ttl = none) ∧
    (∀ (config : CacheConfig) (ctx : Ctx) (path : String) (input v : JsValue)
        (up : UpstashStore) (red : RedisStore) (k : String),
      config.ttl = none → config.useUpstash = true →
      createCacheKey path input ctx config = .ok k →
      truthy (upstashGet up k) = false →
      (middlewareCall config ctx path input (.ok v) {} up red).up.lookup k =
        some ⟨sanitizeForCache v, none⟩) ∧
    (∀ (config : CacheConfig) (ctx : Ctx) (path : String) (input v : JsValue)
        (up : UpstashStore) (red : RedisStore) (k : String) (raw : String),
      config.ttl = none → config.useUpstash = false →
      createCacheKey path input ctx config = .ok k →
      (match red.lookup k with
       | some e => e.raw != ""
       | none => false) = false →
      jstr (sanitizeForCache v) = some raw →
      (middlewareCall config ctx path input (.ok v) {} up red).red.lookup k =
        some ⟨raw, jsonRound (sanitizeForCache v), none⟩) := by
  refine ⟨?_, ?_, ?_, ?_⟩
  · intro u h; simp [resolveConfig, h]
  · intro u h; simp [resolveConfig, h]
  · intro config ctx path input v up red k httl hU hkey hmiss
    simp [middlewareCall, hkey, hU, hmiss, httl, upstashSet_lookup_self]
  · intro config ctx path input v up red k raw httl hU hkey hmiss hraw
    simp [middlewareCall, hkey, hU, hmiss, hraw, httl, redisSet_lookup_self]

/-- Witness for C5 at a concrete configuration with explicit
`ttl: undefined`. -/
theorem c5_ttl_amended_witness :
    (resolveConfig { ttl := some none }).ttl = none ∧
    (resolveConfig { ttl := some none }).useUpstash = true ∧
    createCacheKey "p" .undef ⟨none⟩ (resolveConfig { ttl := some none }) =
      .ok "trpc:user:p:anonymous:" ∧
    truthy (upstashGet [] "trpc:user:p:anonymous:") = false ∧
    (middlewareCall (resolveConfig { ttl := some none }) ⟨none⟩ "p" .undef
        (.ok (.str "v")) {} [] []).up.lookup "trpc:user:p:anonymous:" =
      some ⟨sanitizeForCache (.str "v"), none⟩ :=
  ⟨rfl, rfl, rfl, rfl,
   c5_ttl_amended.2.2.1 _ ⟨none⟩ "p" .undef (.str "v") [] []
     "trpc:user:p:anonymous:" rfl rfl rfl rfl⟩

/-- C1: the code caches failure-shaped results.  With the default
(Upstash) middleware and the repository's own mock failing `next` —
which RESOLVES with `{ ok: false, ..., error: TRPCError }` — the first
call writes a cache entry for the failure result, and a second identical
call is a cache hit: the wrapped operation is NOT re-invoked and the
sanitized failure object is served from the cache.  The repository's
tests (`should not cache failed procedure results with Upstash Redis`)
assert the opposite: zero cache entries and a second execution. -/
theorem c1_failure_result_cached :
    (middlewareCall (resolveConfig {}) ⟨some "user-1"⟩ "test.procedure"
        (.obj [("query", .str "test")]) (.ok failureShapedResult) {} []
        []).calls = 1 ∧
    (middlewareCall (resolveConfig {}) ⟨some "user-1"⟩ "test.procedure"
        (.obj [("query", .str "test")]) (.ok failureShapedResult) {} []
        []).up.length = 1 ∧
    (let out1 := middlewareCall (resolveConfig {}) ⟨some "user-1"⟩
        "test.procedure" (.obj [("query", .str "test")])
        (.ok failureShapedResult) {} [] []
     (middlewareCall (resolveConfig {}) ⟨some "user-1"⟩ "test.procedure"
        (.obj [("query", .str "test")]) (.ok failureShapedResult) {}
        out1.up out1.red).calls = 0) ∧
    (let out1 := middlewareCall (resolveConfig {}) ⟨some "user-1"⟩
        "test.procedure" (.obj [("query", .str "test")])
        (.ok failureShapedResult) {} [] []
     (middlewareCall (resolveConfig {}) ⟨some "user-1"⟩ "test.procedure"
        (.obj [("query", .str "test")]) (.ok failureShapedResult) {}
        out1.up out1.red).res =
       .ok (.obj [("ok", .bool false), ("marker", .str "middlewareMarker"),
                  ("data", .null),
                  ("error", .obj [("code", .str "INTERNAL_SERVER_ERROR"),
                                  ("message", .str "Test error")])])) :=
  ⟨rfl, rfl, rfl, rfl⟩

/-- C3 counterexample: with the default middleware, an empty cache and a
wrapped operation that THROWS, the middleware invokes the wrapped
operation a second time (`calls = 2`): the rejection of `await next()`
lands in the cache-error `catch` block, whose fallback is
`return next()`.  (Nothing is cached, and the caller receives the second
invocation's rejection.) -/
theorem c3_counterexample :
    (middlewareCall (resolveConfig {}) ⟨none⟩ "p" .undef (.error ()) {} []
        []).calls = 2 ∧
    (middlewareCall (resolveConfig {}) ⟨none⟩ "p" .undef (.error ()) {} []
        []).res = .error () ∧
    (middlewareCall (resolveConfig {}) ⟨none⟩ "p" .undef (.error ()) {} []
        []).up = [] :=
  ⟨rfl, rfl, rfl⟩

/-- C3 amended: if the wrapped operation throws on a cache miss, the
middleware's catch-all error handler intercepts the rejection and invokes
the wrapped operation a SECOND time via the cache-failure fallback
(`return next()`); the caller receives the failure (the second
invocation's outcome), and nothing is written to either backend. -/
theorem c3_thrown_op_retried (config : CacheConfig) (ctx : Ctx)
    (path : String) (input : JsValue) (e : Unit) (fault : BackendFault)
    (up : UpstashStore) (red : RedisStore) (k : String)
    (hkey : createCacheKey path input ctx config = .ok k)
    (hcf : fault.connectFail = false) (hgf : fault.getFail = false)
    (hmiss : cacheHit config up red k = false) :
    middlewareCall config ctx path input (.error e) fault up red =
      ⟨.error e, up, red, 2⟩ := by
  cases hU : config.useUpstash <;> simp [cacheHit, hU] at hmiss <;>
    simp [middlewareCall, hkey, hU, hcf, hgf, hmiss]

/-- Witness for C3's amended theorem at a concrete call. -/
theorem c3_thrown_op_retried_witness :
    createCacheKey "p" .undef ⟨none⟩ (resolveConfig {}) =
      .ok "trpc:user:p:anonymous:" ∧
    cacheHit (resolveConfig {}) [] [] "trpc:user:p:anonymous:" = false ∧
    middlewareCall (resolveConfig {}) ⟨none⟩ "p" .undef (.error ()) {} [] [] =
      ⟨.error (), [], [], 2⟩ :=
  ⟨rfl, rfl,
   c3_thrown_op_retried (resolveConfig {}) ⟨none⟩ "p" .undef () {} [] []
     "trpc:user:p:anonymous:" rfl rfl rfl rfl⟩

/-- C4 counterexample: an exception raised while DERIVING the cache key
is NOT caught.  With a custom `getCacheKey` that throws, the middleware
call itself fails (`.error`), the wrapped operation is never invoked, and
nothing degrades to "no caching" — because `createCacheKey` runs at line
193, before the `try` block. -/
theorem c4_counterexample :
    middlewareCall ⟨some 60, true, true, false, some (fun _ _ => .error ())⟩
        ⟨none⟩ "p" .undef (.ok (.str "v")) {} [] [] =
      ⟨.error (), [], [], 0⟩ :=
  rfl

/-- C4 amended: exceptions raised while acquiring the backend client or
reading the cache are caught and degrade to one direct invocation of the
wrapped operation; an exception raised while writing the cache is caught
and the operation (having already run once) is invoked a second time by
the fallback; but an exception raised while deriving the cache key
happens before the `try` block and PROPAGATES to the caller, with the
wrapped operation never invoked. -/
theorem c4_failure_isolation_amended :
    (∀ (config : CacheConfig) (ctx : Ctx) (path : String) (input : JsValue)
        (next : Except Unit JsValue) (fault : BackendFault)
        (up : UpstashStore) (red : RedisStore) (e : Unit),
      createCacheKey path input ctx config = .error e →
      middlewareCall config ctx path input next fault up red =
        ⟨.error e, up, red, 0⟩) ∧
    (∀ (config : CacheConfig) (ctx : Ctx) (path : String) (input : JsValue)
        (next : Except Unit JsValue) (fault : BackendFault)
        (up : UpstashStore) (red : RedisStore) (k : String),
      createCacheKey path input ctx config = .ok k →
      (fault.connectFail || fault.getFail) = true →
      middlewareCall config ctx path input next fault up red =
        ⟨next, up, red, 1⟩) ∧
    (∀ (config : CacheConfig) (ctx : Ctx) (path : String) (input v : JsValue)
        (fault : BackendFault) (up : UpstashStore) (red : RedisStore)
        (k : String),
      createCacheKey path input ctx config = .ok k →
      fault.connectFail = false → fault.getFail = false →
      fault.setFail = true →
      cacheHit config up red k = false →
      middlewareCall config ctx path input (.ok v) fault up red =
        ⟨.ok v, up, red, 2⟩) := by
  refine ⟨?_, ?_, ?_⟩
  · intro config ctx path input next fault up red e hkey
    simp [middlewareCall, hkey]
  · intro config ctx path input next fault up red k hkey hfail
    cases hU : config.useUpstash <;> simp [middlewareCall, hkey, hU, hfail]
  · intro config ctx path input v fault up red k hkey hcf hgf hsf hmiss
    cases hU : config.useUpstash <;> simp [cacheHit, hU] at hmiss
    · cases hj : jstr (sanitizeForCache v) <;>
        simp [middlewareCall, hkey, hU, hcf, hgf, hsf, hmiss, hj]
    · simp [middlewareCall, hkey, hU, hcf, hgf, hsf, hmiss]

/-- Witness for C4's amended theorem: a backend connection failure
degrades to one direct invocation. -/
theorem c4_failure_isolation_amended_witness :
    createCacheKey "p" .undef ⟨none⟩ (resolveConfig {}) =
      .ok "trpc:user:p:anonymous:" ∧
    ((⟨true, false, false⟩ : BackendFault).connectFail ||
      (⟨true, false, false⟩ : BackendFault).getFail) = true ∧
    middlewareCall (resolveConfig {}) ⟨none⟩ "p" .undef (.ok (.str "v"))
        ⟨true, false, false⟩ [] [] =
      ⟨.ok (.str "v"), [], [], 1⟩ :=
  ⟨rfl, rfl,
   c4_failure_isolation_amended.2.1 (resolveConfig {}) ⟨none⟩ "p" .undef
     (.ok (.str "v")) ⟨true, false, false⟩ [] [] "trpc:user:p:anonymous:"
     rfl rfl⟩

/-- Reading a key through the Upstash adapter right after writing it
yields the written value. -/
theorem upstashGet_upstashSet_self (st : UpstashStore) (k : String)
    (v : JsValue) (e : Option Nat) : upstashGet (upstashSet st k v e) k = v := by
  simp [upstashGet, upstashSet_lookup_self]

/-- C2: when the backend lookup for the derived key is a hit (the code's
truthiness test accepts the read value), the cached value is returned
immediately, the wrapped operation is not invoked and the stores are
untouched; and under a miss-then-hit sequence with identical key-relevant
inputs (the freshly written entry tests as a hit, `writtenHit`), the
wrapped operation executes exactly once across the two calls. -/
theorem c2_cache_hit_skips_op :
    (∀ (config : CacheConfig) (ctx : Ctx) (path : String) (input : JsValue)
        (next : Except Unit JsValue) (fault : BackendFault)
        (up : UpstashStore) (red : RedisStore) (k : String),
      createCacheKey path input ctx config = .ok k →
      fault.connectFail = false → fault.getFail = false →
      cacheHit config up red k = true →
      middlewareCall config ctx path input next fault up red =
        ⟨.ok (servedValue config up red k), up, red, 0⟩) ∧
    (∀ (config : CacheConfig) (ctx : Ctx) (path : String) (input v : JsValue)
        (up : UpstashStore) (red : RedisStore) (k : String),
      createCacheKey path input ctx config = .ok k →
      cacheHit config up red k = false →
      writtenHit config v = true →
      (middlewareCall config ctx path input (.ok v) {} up red).calls = 1 ∧
      (middlewareCall config ctx path input (.ok v) {}
        (middlewareCall config ctx path input (.ok v) {} up red).up
        (middlewareCall config ctx path input (.ok v) {} up red).red).calls =
        0) := by
  constructor
  · intro config ctx path input next fault up red k hkey hcf hgf hhit
    cases hU : config.useUpstash <;> simp [cacheHit, hU] at hhit
    · cases hl : red.lookup k with
      | none => simp [hl] at hhit
      | some e' =>
          simp [hl] at hhit
          simp [middlewareCall, servedValue, hkey, hU, hcf, hgf, hl, hhit]
    · simp [middlewareCall, servedValue, hkey, hU, hcf, hgf, hhit]
  · intro config ctx path input v up red k hkey hmiss hwh
    cases hU : config.useUpstash <;> simp [cacheHit, hU] at hmiss <;>
      simp [writtenHit, hU] at hwh
    · cases hj : jstr (sanitizeForCache v) with
      | none => simp [hj] at hwh
      | some raw =>
          simp [hj] at hwh
          constructor
          · simp [middlewareCall, hkey, hU, hmiss, hj]
          · simp [middlewareCall, hkey, hU, hmiss, hj,
              redisSet_lookup_self, hwh]
    · constructor
      · simp [middlewareCall, hkey, hU, hmiss]
      · simp [middlewareCall, hkey, hU, hmiss, upstashGet_upstashSet_self,
          hwh]

/-- Witness for C2: a concrete miss-then-hit sequence executes the
wrapped operation exactly once. -/
theorem c2_cache_hit_skips_op_witness :
    createCacheKey "p" .undef ⟨none⟩ (resolveConfig {}) =
      .ok "trpc:user:p:anonymous:" ∧
    cacheHit (resolveConfig {}) [] [] "trpc:user:p:anonymous:" = false ∧
    writtenHit (resolveConfig {}) (.str "v") = true ∧
    ((middlewareCall (resolveConfig {}) ⟨none⟩ "p" .undef (.ok (.str "v")) {}
        [] []).calls = 1 ∧
     (middlewareCall (resolveConfig {}) ⟨none⟩ "p" .undef (.ok (.str "v")) {}
        (middlewareCall (resolveConfig {}) ⟨none⟩ "p" .undef (.ok (.str "v"))
          {} [] []).up
        (middlewareCall (resolveConfig {}) ⟨none⟩ "p" .undef (.ok (.str "v"))
          {} [] []).red).calls = 0) :=
  ⟨rfl, rfl, rfl,
   c2_cache_hit_skips_op.2 (resolveConfig {}) ⟨none⟩ "p" .undef (.str "v")
     [] [] "trpc:user:p:anonymous:" rfl rfl rfl⟩

/-- C10 counterexample: in the standard-Redis branch a cached falsy value
IS served.  The wrapped operation returns `false`; the first call stores
the JSON string `"false"`, which is a non-empty — truthy — string, so the
second call is a cache hit: the operation is NOT re-invoked and the
cached `false` is served, contradicting the claim that every subsequent
call for a falsy cached value is treated as a miss and such an entry is
never served. -/
theorem c10_counterexample :
    (middlewareCall (resolveConfig { useUpstash := some false }) ⟨none⟩ "p"
        .undef (.ok (.bool false)) {} [] []).calls = 1 ∧
    (middlewareCall (resolveConfig { useUpstash := some false }) ⟨none⟩ "p"
        .undef (.ok (.bool false)) {}
        (middlewareCall (resolveConfig { useUpstash := some false }) ⟨none⟩
          "p" .undef (.ok (.bool false)) {} [] []).up
        (middlewareCall (resolveConfig { useUpstash := some false }) ⟨none⟩
          "p" .undef (.ok (.bool false)) {} [] []).red).calls = 0 ∧
    (middlewareCall (resolveConfig { useUpstash := some false }) ⟨none⟩ "p"
        .undef (.ok (.bool false)) {}
        (middlewareCall (resolveConfig { useUpstash := some false }) ⟨none⟩
          "p" .undef (.ok (.bool false)) {} [] []).up
        (middlewareCall (resolveConfig { useUpstash := some false }) ⟨none⟩
          "p" .undef (.ok (.bool false)) {} [] []).red).res =
      .ok (.bool false) :=
  ⟨rfl, rfl, rfl⟩

/-- C10 amended: the hit test is plain JavaScript truthiness on the value
the backend returns.  In the UPSTASH branch the backend returns the
deserialized value itself, so a cached falsy value (`0`, `false`, `""`,
`null`) makes every subsequent call a miss: the wrapped operation is
re-invoked and its result re-written, and the entry is never served.  In
the standard-Redis branch the backend returns the stored JSON string,
which is non-empty for any written entry, so there even cached falsy
values are served. -/
theorem c10_falsy_cache_amended :
    (∀ (config : CacheConfig) (ctx : Ctx) (path : String) (input v : JsValue)
        (up : UpstashStore) (red : RedisStore) (k : String),
      config.useUpstash = true →
      createCacheKey path input ctx config = .ok k →
      truthy (upstashGet up k) = false →
      truthy (sanitizeForCache v) = false →
      ((middlewareCall config ctx path input (.ok v) {} up red).calls = 1 ∧
       (middlewareCall config ctx path input (.ok v) {}
         (middlewareCall config ctx path input (.ok v) {} up red).up
         (middlewareCall config ctx path input (.ok v) {} up red).red).calls =
         1 ∧
       (middlewareCall config ctx path input (.ok v) {}
         (middlewareCall config ctx path input (.ok v) {} up red).up
         (middlewareCall config ctx path input (.ok v) {} up red).red).res =
         .ok v)) ∧
    (∀ (config : CacheConfig) (ctx : Ctx) (path : String) (input v : JsValue)
        (up : UpstashStore) (red : RedisStore) (k : String) (raw : String),
      config.useUpstash = false →
      createCacheKey path input ctx config = .ok k →
      cacheHit config up red k = false →
      truthy (sanitizeForCache v) = false →
      jstr (sanitizeForCache v) = some raw → raw ≠ "" →
      (middlewareCall config ctx path input (.ok v) {}
        (middlewareCall config ctx path input (.ok v) {} up red).up
        (middlewareCall config ctx path input (.ok v) {} up red).red).calls =
        0) := by
  constructor
  · intro config ctx path input v up red k hU hkey hmiss hfalsy
    refine ⟨?_, ?_, ?_⟩ <;>
      simp [middlewareCall, hkey, hU, hmiss, upstashGet_upstashSet_self,
        hfalsy]
  · intro config ctx path input v up red k raw hU hkey hmiss hfalsy hj hraw
    simp [cacheHit, hU] at hmiss
    simp [middlewareCall, hkey, hU, hmiss, hj, redisSet_lookup_self, hraw]

/-- Witness for C10's amended theorem: a cached `0` under the Upstash
branch is re-computed on the second call. -/
theorem c10_falsy_cache_amended_witness :
    (resolveConfig {}).useUpstash = true ∧
    createCacheKey "p" .undef ⟨none⟩ (resolveConfig {}) =
      .ok "trpc:user:p:anonymous:" ∧
    truthy (upstashGet [] "trpc:user:p:anonymous:") = false ∧
    truthy (sanitizeForCache (.num 0)) = false ∧
    ((middlewareCall (resolveConfig {}) ⟨none⟩ "p" .undef (.ok (.num 0)) {}
        [] []).calls = 1 ∧
     (middlewareCall (resolveConfig {}) ⟨none⟩ "p" .undef (.ok (.num 0)) {}
        (middlewareCall (resolveConfig {}) ⟨none⟩ "p" .undef (.ok (.num 0))
          {} [] []).up
        (middlewareCall (resolveConfig {}) ⟨none⟩ "p" .undef (.ok (.num 0))
          {} [] []).red).calls = 1 ∧
     (middlewareCall (resolveConfig {}) ⟨none⟩ "p" .undef (.ok (.num 0)) {}
        (middlewareCall (resolveConfig {}) ⟨none⟩ "p" .undef (.ok (.num 0))
          {} [] []).up
        (middlewareCall (resolveConfig {}) ⟨none⟩ "p" .undef (.ok (.num 0))
          {} [] []).red).res = .ok (.num 0)) :=
  ⟨rfl, rfl, rfl, rfl,
   c10_falsy_cache_amended.1 (resolveConfig {}) ⟨none⟩ "p" .undef (.num 0)
     [] [] "trpc:user:p:anonymous:" rfl rfl rfl rfl⟩

/-- C7 counterexample: with caller identity the EMPTY string, the
middleware derives `trpc:user:p::` (nullish coalescing keeps `""`), but
`invalidateCache` — whose mock context uses string truthiness
(`config.userId ? ... : undefined`) — derives `trpc:user:p:anonymous:`
and deletes that key instead.  A store-then-invalidate-then-call sequence
with matching parameters therefore ends in a HIT (`calls = 0`), not the
miss the claim requires. -/
theorem c7_counterexample :
    invalidateCacheKey "p" .undef { userId := some "" } =
      "trpc:user:p:anonymous:" ∧
    createCacheKey "p" .undef ⟨some ""⟩ (resolveConfig {}) =
      .ok "trpc:user:p::" ∧
    "trpc:user:p:anonymous:" ≠ "trpc:user:p::" ∧
    (let out1 := middlewareCall (resolveConfig {}) ⟨some ""⟩ "p" .undef
        (.ok (.str "v")) {} [] []
     let afterInv := invalidateCache "p" .undef { userId := some "" }
        out1.up out1.red
     (middlewareCall (resolveConfig {}) ⟨some ""⟩ "p" .undef
        (.ok (.str "v")) {} afterInv.1 afterInv.2).calls = 0) :=
  ⟨rfl, rfl, by decide, rfl⟩

/-- C7 amended: provided the caller identity is absent or a NON-EMPTY
string, `invalidateCache` reconstructs a context equivalent to the live
call's and derives exactly the key the middleware derives under the same
flags (whatever the ttl or backend selector), then deletes it, so the
subsequent lookup of that key misses.  An empty-string identity is the
exception: `invalidateCache` treats it as absent (deriving `anonymous`)
while the middleware keeps it, and the keys diverge. -/
theorem c7_invalidate_amended :
    (∀ (path : String) (input : JsValue) (uid : Option String)
        (opts : InvalidateOptions) (c : CacheConfig),
      opts.userId = uid →
      (uid = none ∨ ∃ s, uid = some s ∧ s ≠ "") →
      c.getCacheKey = none →
      c.globalCache = (invalidateConfig opts).globalCache →
      c.userSpecific = (invalidateConfig opts).userSpecific →
      createCacheKey path input ⟨uid⟩ c =
        .ok (invalidateCacheKey path input opts)) ∧
    (∀ (path : String) (input : JsValue) (opts : InvalidateOptions)
        (up : UpstashStore) (red : RedisStore),
      ((invalidateConfig opts).useUpstash = true →
        (invalidateCache path input opts up red).1.lookup
          (invalidateCacheKey path input opts) = none) ∧
      ((invalidateConfig opts).useUpstash = false →
        (invalidateCache path input opts up red).2.lookup
          (invalidateCacheKey path input opts) = none)) := by
  constructor
  · intro path input uid opts c hid huid hg hgc hus
    have hctx : invalidateMockCtx opts = ⟨uid⟩ := by
      rcases huid with h | ⟨s, hs, hne⟩
      · simp [invalidateMockCtx, hid, h]
      · simp [invalidateMockCtx, hid, hs, hne]
    have hinv : (invalidateConfig opts).getCacheKey = none := rfl
    rw [invalidateCacheKey, hctx]
    cases hgb : (invalidateConfig opts).globalCache <;>
      cases hub : (invalidateConfig opts).userSpecific <;>
        simp [createCacheKey, hg, hinv, hgb, hub, hgc ▸ hgb, hus ▸ hub]
  · intro path input opts up red
    constructor <;> intro hU <;>
      simp [invalidateCache, hU, upstashDel, redisDel, lookup_filter_self]

/-- Witness for C7's amended theorem at a concrete non-empty identity. -/
theorem c7_invalidate_amended_witness :
    ((⟨none, none, none, some "u"⟩ : InvalidateOptions).userId = some "u" ∧
     (resolveConfig {}).getCacheKey = none ∧
     createCacheKey "p" .undef ⟨some "u"⟩ (resolveConfig {}) =
       .ok (invalidateCacheKey "p" .undef ⟨none, none, none, some "u"⟩)) ∧
    ((invalidateConfig ⟨none, none, none, some "u"⟩).useUpstash = true ∧
     (invalidateCache "p" .undef ⟨none, none, none, some "u"⟩
        [("trpc:user:p:u:", ⟨.str "v", some 60⟩)] []).1.lookup
       (invalidateCacheKey "p" .undef ⟨none, none, none, some "u"⟩) = none) :=
  ⟨⟨rfl, rfl,
    c7_invalidate_amended.1 "p" .undef (some "u") ⟨none, none, none, some "u"⟩
      (resolveConfig {}) rfl (Or.inr ⟨"u", rfl, by decide⟩) rfl rfl rfl⟩,
   ⟨rfl,
    (c7_invalidate_amended.2 "p" .undef ⟨none, none, none, some "u"⟩
      [("trpc:user:p:u:", ⟨.str "v", some 60⟩)] []).1 rfl⟩⟩

/-- A duplicate-free list of indices below `len` has at most `len`
elements. -/
theorem seenInv_length_le (len : Nat) (seen : List Nat)
    (h : seenInv len seen) : seen.length ≤ len := by
  obtain ⟨hnd, hbd⟩ := h
  have h1 : seen.toFinset.card = seen.length :=
    List.toFinset_card_of_nodup hnd
  have h2 : seen.toFinset ⊆ Finset.range len := by
    intro j hj
    exact Finset.mem_range.mpr (hbd j (List.mem_toFinset.mp hj))
  calc seen.length = seen.toFinset.card := h1.symm
    _ ≤ (Finset.range len).card := Finset.card_le_card h2
    _ = len := Finset.card_range len

/-- Soundness of `strList` at a fixed fuel, given soundness of `strRef`
at that fuel: all elements serialize (no throw, no fuel exhaustion) and
the seen set evolves by `goodStep`. -/
theorem strList_total_of (store : Store) (fuel : Nat)
    (hR : ∀ seen r, seenPre store.length fuel seen →
      wfRef store.length r = true → refNoBig r = true →
      strRefOk store fuel seen r) :
    ∀ (rs : List Ref) (seen : List Nat),
      seenPre store.length fuel seen →
      (∀ r ∈ rs, wfRef store.length r = true ∧ refNoBig r = true) →
      ∃ parts seen', strList store fuel seen rs = (.inl parts, seen') ∧
        goodStep store.length seen seen' := by
  intro rs
  induction rs with
  | nil =>
      intro seen hpre _
      exact ⟨[], seen, by simp [strList], ⟨[], rfl⟩, hpre.1⟩
  | cons r rs ih =>
      intro seen hpre hrs
      obtain ⟨res, seen₁, heq, hth, hfu, _, ⟨ext₁, hext₁⟩, hinv₁⟩ :=
        hR seen r hpre (hrs r (List.mem_cons_self r rs)).1
          (hrs r (List.mem_cons_self r rs)).2
      have hlen₁ : seen.length ≤ seen₁.length := by
        subst hext₁; simp
      have hpre₁ : seenPre store.length fuel seen₁ :=
        ⟨hinv₁, le_trans hpre.2 (by omega)⟩
      obtain ⟨parts, seen₂, heq₂, ⟨ext₂, hext₂⟩, hinv₂⟩ :=
        ih seen₁ hpre₁ (fun r' hr' => hrs r' (List.mem_cons_of_mem r hr'))
      have hstep : goodStep store.length seen seen₂ :=
        ⟨⟨ext₂ ++ ext₁, by rw [hext₂, hext₁, List.append_assoc]⟩, hinv₂⟩
      cases res with
      | s out =>
          exact ⟨out :: parts, seen₂, by simp [strList, heq, heq₂], hstep⟩
      | omitted =>
          exact ⟨"null" :: parts, seen₂, by simp [strList, heq, heq₂], hstep⟩
      | thrown => exact absurd rfl hth
      | fuelOut => exact absurd rfl hfu

/-- Soundness of `strFields` at a fixed fuel, given soundness of `strRef`
at that fuel. -/
theorem strFields_total_of (store : Store) (fuel : Nat)
    (hR : ∀ seen r, seenPre store.length fuel seen →
      wfRef store.length r = true → refNoBig r = true →
      strRefOk store fuel seen r) :
    ∀ (rs : List (String × Ref)) (seen : List Nat),
      seenPre store.length fuel seen →
      (∀ p ∈ rs, wfRef store.length p.2 = true ∧ refNoBig p.2 = true) →
      ∃ parts seen', strFields store fuel seen rs = (.inl parts, seen') ∧
        goodStep store.length seen seen' := by
  intro rs
  induction rs with
  | nil =>
      intro seen hpre _
      exact ⟨[], seen, by simp [strFields], ⟨[], rfl⟩, hpre.1⟩
  | cons p rs ih =>
      intro seen hpre hrs
      obtain ⟨k, r⟩ := p
      obtain ⟨res, seen₁, heq, hth, hfu, _, ⟨ext₁, hext₁⟩, hinv₁⟩ :=
        hR seen r hpre (hrs (k, r) (List.mem_cons_self (k, r) rs)).1
          (hrs (k, r) (List.mem_cons_self (k, r) rs)).2
      have hlen₁ : seen.length ≤ seen₁.length := by
        subst hext₁; simp
      have hpre₁ : seenPre store.length fuel seen₁ :=
        ⟨hinv₁, le_trans hpre.2 (by omega)⟩
      obtain ⟨parts, seen₂, heq₂, ⟨ext₂, hext₂⟩, hinv₂⟩ :=
        ih seen₁ hpre₁ (fun p' hp' => hrs p' (List.mem_cons_of_mem (k, r) hp'))
      have hstep : goodStep store.length seen seen₂ :=
        ⟨⟨ext₂ ++ ext₁, by rw [hext₂, hext₁, List.append_assoc]⟩, hinv₂⟩
      cases res with
      | s out =>
          exact ⟨(jsonQuote k ++ ":" ++ out) :: parts, seen₂,
            by simp [strFields, heq, heq₂], hstep⟩
      | omitted =>
          exact ⟨parts, seen₂, by simp [strFields, heq, heq₂], hstep⟩
      | thrown => exact absurd rfl hth
      | fuelOut => exact absurd rfl hfu

/-- Fuel adequacy and safety of the replacer traversal: over a
well-formed store with no `BigInt` children, `strRef` neither throws nor
exhausts its fuel whenever the fuel plus the (duplicate-free, in-range)
seen count exceeds the store size, and a pointer always produces a proper
JSON string. -/
theorem strRef_total (store : Store) (hwf : wfStore store = true)
    (hnb : storeNoBig store = true) :
    ∀ (fuel : Nat) (seen : List Nat) (r : Ref),
      seenPre store.length fuel seen → wfRef store.length r = true →
      refNoBig r = true → strRefOk store fuel seen r := by
  intro fuel
  induction fuel with
  | zero =>
      intro seen r hpre hr hb
      cases r with
      | prim p =>
          refine ⟨renderPrim p, seen, by simp [strRef], ?_, ?_, ?_,
            ⟨[], rfl⟩, hpre.1⟩
          · cases p <;> simp_all [renderPrim, refNoBig]
          · cases p <;> simp [renderPrim]
          · intro i h; cases h
      | ptr i =>
          exfalso
          have h1 : seen.length ≤ store.length := seenInv_length_le _ _ hpre.1
          have h2 := hpre.2
          omega
  | succ f ih =>
      intro seen r hpre hr hb
      cases r with
      | prim p =>
          refine ⟨renderPrim p, seen, by simp [strRef], ?_, ?_, ?_,
            ⟨[], rfl⟩, hpre.1⟩
          · cases p <;> simp_all [renderPrim, refNoBig]
          · cases p <;> simp [renderPrim]
          · intro i h; cases h
      | ptr i =>
          have hiL : i < store.length := by simpa [wfRef] using hr
          by_cases hin : i ∈ seen
          · refine ⟨.s (jsonQuote "[Circular Reference]"), seen,
              by simp [strRef, hin], by simp, by simp,
              fun _ _ => ⟨_, rfl⟩, ⟨[], rfl⟩, hpre.1⟩
          · obtain ⟨c, hc⟩ : ∃ c, store[i]? = some c := by
              cases hg : store[i]? with
              | none =>
                  rw [List.getElem?_eq_none_iff] at hg
                  omega
              | some c => exact ⟨c, rfl⟩
            have hc' : store.get? i = some c := by
              rw [List.get?_eq_getElem?]; exact hc
            have hcmem : c ∈ store := List.get?_mem hc'
            have hcwf : wfContent store.length c = true :=
              List.all_eq_true.mp hwf c hcmem
            have hcnb : contentNoBig c = true :=
              List.all_eq_true.mp hnb c hcmem
            have hpre' : seenPre store.length f (i :: seen) := by
              refine ⟨⟨List.nodup_cons.mpr ⟨hin, hpre.1.1⟩, ?_⟩, ?_⟩
              · intro j hj
                rcases List.mem_cons.mp hj with h | h
                · exact h ▸ hiL
                · exact hpre.1.2 j h
              · have := hpre.2
                simp only [List.length_cons]
                omega
            cases c with
            | arrN elems =>
                have h1 : ∀ r' ∈ elems, wfRef store.length r' = true := by
                  simpa [wfContent, List.all_eq_true] using hcwf
                have h2 : ∀ r' ∈ elems, refNoBig r' = true := by
                  simpa [contentNoBig, List.all_eq_true] using hcnb
                obtain ⟨parts, seen', hl, ⟨ext, hext⟩, hinv'⟩ :=
                  strList_total_of store f ih elems (i :: seen) hpre'
                    (fun r' hr' => ⟨h1 r' hr', h2 r' hr'⟩)
                refine ⟨.s ("[" ++ String.intercalate "," parts ++ "]"),
                  seen', by simp [strRef, hin, hc, hl], by simp, by simp,
                  fun _ _ => ⟨_, rfl⟩,
                  ⟨ext ++ [i], by rw [hext]; simp⟩, hinv'⟩
            | objN fields =>
                have h1 : ∀ a b, (a, b) ∈ fields →
                    wfRef store.length b = true := by
                  simpa [wfContent, List.all_eq_true] using hcwf
                have h2 : ∀ a b, (a, b) ∈ fields → refNoBig b = true := by
                  simpa [contentNoBig, List.all_eq_true] using hcnb
                obtain ⟨parts, seen', hl, ⟨ext, hext⟩, hinv'⟩ :=
                  strFields_total_of store f ih fields (i :: seen) hpre'
                    (fun p hp => by
                      obtain ⟨a, b⟩ := p
                      exact ⟨h1 a b hp, h2 a b hp⟩)
                refine ⟨.s ("\x7b" ++ String.intercalate "," parts ++ "\x7d"),
                  seen', by simp [strRef, hin, hc, hl], by simp, by simp,
                  fun _ _ => ⟨_, rfl⟩,
                  ⟨ext ++ [i], by rw [hext]; simp⟩, hinv'⟩

/-- C9: `safeStringify` never throws — for every object graph, including
cyclic ones, over a well-formed store whose values contain no `BigInt`
(the one primitive the underlying stringification fails on), it returns a
string; the second visit to an already-visited object reference is
replaced by the JSON string `"[Circular Reference]"` (the identity-based
seen set is scoped to the call: it starts empty); and on such graphs the
result is never the `null` of the `catch` arm — `null` can only arise
when the underlying stringification fails unrecoverably. -/
theorem c9_safe_stringify_spec :
    (∀ (store : Store) (i : Nat), wfStore store = true →
      storeNoBig store = true → i < store.length →
      ∃ s, safeStringify store (.ptr i) = .strRes s) ∧
    (∀ (store : Store) (fuel : Nat) (seen : List Nat) (i : Nat), i ∈ seen →
      strRef store (fuel + 1) seen (.ptr i) =
        (.s (jsonQuote "[Circular Reference]"), seen)) ∧
    (∀ (store : Store) (i : Nat), wfStore store = true →
      storeNoBig store = true → i < store.length →
      safeStringify store (.ptr i) ≠ .nullRes) := by
  have main : ∀ (store : Store) (i : Nat), wfStore store = true →
      storeNoBig store = true → i < store.length →
      ∃ s, safeStringify store (.ptr i) = .strRes s := by
    intro store i hwf hnb hi
    obtain ⟨res, seen', heq, hth, hfu, hptr, _⟩ :=
      strRef_total store hwf hnb (store.length + 1) [] (.ptr i)
        ⟨⟨List.nodup_nil, by intro j hj; cases hj⟩, by simp⟩
        (by simpa [wfRef] using hi) rfl
    obtain ⟨out, hout⟩ := hptr i rfl
    subst hout
    exact ⟨out, by simp [safeStringify, heq]⟩
  refine ⟨main, ?_, ?_⟩
  · intro store fuel seen i hin
    simp [strRef, hin]
  · intro store i hwf hnb hi
    obtain ⟨s, hs⟩ := main store i hwf hnb hi
    simp [hs]

/-- Witness for C9 on the concrete one-node cyclic graph `a.self = a`:
the result is a string with the sentinel in place of the second visit. -/
theorem c9_safe_stringify_spec_witness :
    wfStore cycStore = true ∧ storeNoBig cycStore = true ∧
    0 < cycStore.length ∧
    (∃ s, safeStringify cycStore (.ptr 0) = .strRes s) ∧
    safeStringify cycStore (.ptr 0) =
      .strRes "\x7b\"self\":\"[Circular Reference]\"\x7d" :=
  ⟨rfl, rfl, by decide,
   c9_safe_stringify_spec.1 cycStore 0 rfl rfl (by decide),
   by simp [safeStringify, cycStore, strRef, strFields, jsonQuote, escChar]
      rfl⟩

end TrpcCache
